import Mathlib

/-!
Verification development for the hashcat progress-curve tool
(`password_cracking_curve.py`).

The core under scrutiny is `HashcatStatusParser.parse_status_file`, which
reads a file of JSON-lines hashcat status records and segments them into
labeled progress curves, plus the per-curve downsampling step of
`PasswordCrackingApp._create_figure`.

Modeling conventions:
  * JSON values decoded by `json.loads` are modeled by the mutual inductive
    family `Json` / `JsonList` / `JsonFields` (values, value lists, and
    string-keyed dictionaries), with numbers as rationals.  Python equality
    `==` on decoded values is modeled by `Json.pyEq` (numeric cross-type
    equality between booleans and numbers included; dictionary equality is
    compared field-by-field in order, which is exact for dictionaries
    decoded from identical text, since `json.loads` preserves key order).
  * Operations that can raise in Python return `Except PyErr`; the only
    exception handler in the source catches `json.JSONDecodeError`.
  * `json.loads` itself is external library code, so it is passed in as a
    parameter `decode : String → Option JsonFields`: it returns the field
    list of the decoded object when the line parses as a JSON object, and
    `none` when `json.JSONDecodeError` would be raised.  A line is handed
    to it only after the `strip`/`startswith` gate, exactly as in the
    source.
  * The Python string methods `strip`, `startswith` and `replace` used by
    the source are modeled directly over character lists.
  * The initial value of `current_identifier` in the source is the empty
    string `""`, which is never equal (by Python `==`) to any key tuple; it
    is modeled as `none` in an `Option`.
-/

mutual

/-- Json models a Python value decoded by `json.loads`: `None`, booleans,
numbers (as rationals), strings, lists, and string-keyed dictionaries. -/
inductive Json where
  | null : Json
  | bool (b : Bool) : Json
  | num (q : ℚ) : Json
  | str (s : String) : Json
  | arr (elems : JsonList) : Json
  | obj (fields : JsonFields) : Json

/-- JsonList is a list of decoded JSON values. -/
inductive JsonList where
  | nil : JsonList
  | cons (hd : Json) (tl : JsonList) : JsonList

/-- JsonFields is the field list of a decoded JSON dictionary, in the key
order of the decoded text. -/
inductive JsonFields where
  | nil : JsonFields
  | cons (key : String) (val : Json) (tl : JsonFields) : JsonFields

end

/-- Conversion of a plain list of values into a `JsonList`. -/
def JsonList.ofList : List Json → JsonList
  | [] => .nil
  | a :: as => .cons a (JsonList.ofList as)

/-- Conversion of a plain association list into a `JsonFields`. -/
def JsonFields.ofList : List (String × Json) → JsonFields
  | [] => .nil
  | (k, v) :: fs => .cons k v (JsonFields.ofList fs)

/-- Length of a `JsonList`. -/
def JsonList.length : JsonList → Nat
  | .nil => 0
  | .cons _ t => t.length + 1

/-- Positional access into a `JsonList`. -/
def JsonList.get? : JsonList → Nat → Option Json
  | .nil, _ => none
  | .cons a _, 0 => some a
  | .cons _ t, n + 1 => t.get? n

/-- First binding of a key in a dictionary field list (`json.loads`
produces dictionaries, whose keys are unique). -/
def JsonFields.lookup : JsonFields → String → Option Json
  | .nil, _ => none
  | .cons k v t, key => if k == key then some v else t.lookup key

mutual

/-- Python equality `==` on decoded JSON values: `True == 1` and
`False == 0` hold, lists compare pointwise, dictionaries compare
field-by-field in order (exact for dictionaries decoded from equal text). -/
def Json.pyEq : Json → Json → Bool
  | .null, .null => true
  | .bool a, .bool b => a == b
  | .bool a, .num q => (if a then (1 : ℚ) else 0) == q
  | .num q, .bool b => q == (if b then (1 : ℚ) else 0)
  | .num a, .num b => a == b
  | .str a, .str b => a == b
  | .arr as, .arr bs => JsonList.pyEq as bs
  | .obj as, .obj bs => JsonFields.pyEq as bs
  | _, _ => false

/-- Pointwise Python equality of two lists of JSON values. -/
def JsonList.pyEq : JsonList → JsonList → Bool
  | .nil, .nil => true
  | .cons a as, .cons b bs => Json.pyEq a b && JsonList.pyEq as bs
  | _, _ => false

/-- Fieldwise Python equality of two decoded JSON dictionaries. -/
def JsonFields.pyEq : JsonFields → JsonFields → Bool
  | .nil, .nil => true
  | .cons k v as, .cons l w bs => k == l && Json.pyEq v w && JsonFields.pyEq as bs
  | _, _ => false

end

mutual

/-- Python `str()` of a decoded JSON value, as used by the f-string
`f"{time_start}/{guess_base}"` on line 77 of the source.  It is exact on
strings, `None`, booleans and integers (the only shapes `time_start` takes
in hashcat output); non-integral numbers render as fractions, an accepted
approximation of float formatting that no record shape exercises. -/
def Json.pyStr : Json → String
  | .null => "None"
  | .bool true => "True"
  | .bool false => "False"
  | .num q => if q.den = 1 then toString q.num else toString q
  | .str s => s
  | .arr as => "[" ++ JsonList.pyReprJoin as ++ "]"
  | .obj fs => "\x7b" ++ JsonFields.pyReprJoin fs ++ "\x7d"

/-- Comma-joined Python `repr()` of list elements (strings gain quotes
under `repr`). -/
def JsonList.pyReprJoin : JsonList → String
  | .nil => ""
  | .cons (Json.str s) .nil => "\x27" ++ s ++ "\x27"
  | .cons a .nil => Json.pyStr a
  | .cons (Json.str s) as => "\x27" ++ s ++ "\x27" ++ ", " ++ JsonList.pyReprJoin as
  | .cons a as => Json.pyStr a ++ ", " ++ JsonList.pyReprJoin as

/-- Comma-joined Python `repr()` of dictionary fields. -/
def JsonFields.pyReprJoin : JsonFields → String
  | .nil => ""
  | .cons k (Json.str s) .nil => "\x27" ++ k ++ "\x27: \x27" ++ s ++ "\x27"
  | .cons k v .nil => "\x27" ++ k ++ "\x27: " ++ Json.pyStr v
  | .cons k (Json.str s) fs =>
      "\x27" ++ k ++ "\x27: \x27" ++ s ++ "\x27, " ++ JsonFields.pyReprJoin fs
  | .cons k v fs => "\x27" ++ k ++ "\x27: " ++ Json.pyStr v ++ ", " ++ JsonFields.pyReprJoin fs

end

/-- Python `str.strip()` with no argument: drop leading and trailing
whitespace (line 44 of the source). -/
def pyStrip (s : String) : String :=
  ⟨((s.data.dropWhile Char.isWhitespace).reverse.dropWhile Char.isWhitespace).reverse⟩

/-- Python `str.startswith(prefix)` (line 45 of the source). -/
def pyStartsWith (s pre : String) : Bool :=
  pre.data.isPrefixOf s.data

/-- Replacement loop of Python `str.replace`: scan left to right, replace
each non-overlapping occurrence of `o :: os` by `new`.  The fuel argument,
instantiated with the length of the scanned list, only makes the recursion
structural: every step consumes at least one character, so the fuel never
runs out. -/
def replaceCharsFuel (o : Char) (os new : List Char) : Nat → List Char → List Char
  | 0, l => l
  | _ + 1, [] => []
  | fuel + 1, c :: cs =>
      if (o :: os).isPrefixOf (c :: cs) then
        new ++ replaceCharsFuel o os new fuel (cs.drop os.length)
      else c :: replaceCharsFuel o os new fuel cs

/-- Python `str.replace(old, new)`: replace all non-overlapping occurrences
of `old`, left to right (line 73 of the source, whose `old` is non-empty;
the empty-pattern case falls back to the unchanged string). -/
def pyReplace (s old new : String) : String :=
  match old.data with
  | [] => s
  | o :: os => ⟨replaceCharsFuel o os new.data s.data.length s.data⟩

/-- PyErr enumerates the exception classes the modeled fragment can raise.
None of them is caught by the source (its only handler catches
`json.JSONDecodeError`). -/
inductive PyErr where
  | typeError : PyErr
  | indexError : PyErr
  | keyError : PyErr
  | attributeError : PyErr
deriving DecidableEq, Repr

/-- Python `dict.get(key, default)` on a decoded JSON dictionary. -/
def dictGet (fields : JsonFields) (key : String) (dflt : Json) : Json :=
  match fields.lookup key with
  | some v => v
  | none => dflt

/-- Python subscript `value[i]` for a non-negative literal index, as in
`data.get("progress", [0])[0]` and `recovered[0]`, `recovered[1]`: lists
index positionally (IndexError when out of range), strings yield a
one-character string, dictionaries raise KeyError on an integer key
(decoded JSON dictionaries have only string keys), everything else raises
TypeError. -/
def pySubscript : Json → Nat → Except PyErr Json
  | .arr xs, i =>
      match xs.get? i with
      | some v => .ok v
      | none => .error .indexError
  | .str s, i =>
      match s.data.get? i with
      | some c => .ok (.str (String.singleton c))
      | none => .error .indexError
  | .obj _, _ => .error .keyError
  | _, _ => .error .typeError

/-- Python numeric coercion at an arithmetic or comparison site
(`guesses += progress`, `recovered[1] > 0`, `cracked / total`): numbers are
themselves, booleans count as 1 and 0, anything else raises TypeError. -/
def pyNum : Json → Except PyErr ℚ
  | .num q => .ok q
  | .bool b => .ok (if b then 1 else 0)
  | _ => .error .typeError

/-- Python attribute access `.get` on the value of the "guess" field:
only dictionaries have it, anything else raises AttributeError. -/
def pyGetAttrFields : Json → Except PyErr JsonFields
  | .obj fs => .ok fs
  | _ => .error .attributeError

/-- Python attribute access `.replace` on the `guess_base` value: only
strings have it, anything else raises AttributeError. -/
def pyReplaceTarget : Json → Except PyErr String
  | .str s => .ok s
  | _ => .error .attributeError

/-- AttackKey is the tuple `(f"{time_start}/{guess_base}", guess_mod)`
built on line 77 of the source. -/
abbrev AttackKey := String × Json

/-- Python test `key != current_identifier` (line 80): the initial
`current_identifier` is the string `""` (modeled `none`), never equal to a
tuple; otherwise the tuples compare componentwise by Python `==`. -/
def keyDiffers (key : AttackKey) : Option AttackKey → Bool
  | none => true
  | some c => !(key.fst == c.fst && Json.pyEq key.snd c.snd)

/-- HashcatConfig carries the `HashcatStatusParser` constructor settings
`x_axis_type`, `y_axis_type` and `status_timer`. -/
structure HashcatConfig where
  x_axis_type : String
  y_axis_type : String
  status_timer : ℚ

/-- Default settings of `HashcatStatusParser.__init__` (also the
`PasswordCrackingApp` defaults): guesses on x, percentage on y, one-second
status timer. -/
def defaultConfig : HashcatConfig := ⟨"guesses", "percentage", 1⟩

/-- ParseState is the mutable local state of `parse_status_file`:
the three result lists plus the `guesses`, `current_identifier` and
`elapsed_seconds` counters. -/
structure ParseState where
  curves_x : List (List ℚ)
  curves_y : List (List Json)
  label_list : List AttackKey
  guesses : ℚ
  current_identifier : Option AttackKey
  elapsed_seconds : ℚ

/-- Initial state of a `parse_status_file` call (lines 30-40 of the
source): empty result lists, zero counters, empty current identifier. -/
def initialState : ParseState := ⟨[], [], [], 0, none, 0⟩

/-- X-axis value selection (lines 60-63): elapsed seconds in `time` mode,
cumulative guesses otherwise. -/
def xValue (cfg : HashcatConfig) (elapsed_seconds guesses : ℚ) : ℚ :=
  if cfg.x_axis_type = "time" then elapsed_seconds else guesses

/-- Y-axis value selection (lines 66-69): the raw `cracked` value in
`count` mode, otherwise `(cracked / total) * 100`, which requires `cracked`
to be numeric. -/
def yValue (cfg : HashcatConfig) (cracked : Json) (total : ℚ) : Except PyErr Json :=
  if cfg.y_axis_type = "count" then .ok cracked
  else do
    let c ← pyNum cracked
    pure (Json.num ((c / total) * 100))

/-- Attack-key extraction (lines 72-77): `guess_base` defaults to
"unknown" and has the substring "autocat_new_cracked_potfile" replaced by
"potfile", `guess_mod` defaults to `None`, `time_start` defaults to
"unknown", and the key is the pair of the formatted
`f"{time_start}/{guess_base}"` string and `guess_mod`. -/
def extractAttackKey (data : JsonFields) : Except PyErr AttackKey := do
  let guessFields ← pyGetAttrFields (dictGet data "guess" (Json.obj .nil))
  let guessBaseRaw := dictGet guessFields "guess_base" (Json.str "unknown")
  let guessBaseStr ← pyReplaceTarget guessBaseRaw
  let guess_base := pyReplace guessBaseStr "autocat_new_cracked_potfile" "potfile"
  let guessFieldsAgain ← pyGetAttrFields (dictGet data "guess" (Json.obj .nil))
  let guess_mod := dictGet guessFieldsAgain "guess_mod" Json.null
  let time_start := dictGet data "time_start" (Json.str "unknown")
  pure (Json.pyStr time_start ++ "/" ++ guess_base, guess_mod)

/-- Pure curve-update core of the per-record processing (lines 80-97),
applied once the extracted values are at hand: on a key change the previous
curve is left as it is and a fresh two-point curve is appended, seeded
either with the previous curve last point (lines 83-84) or with the `(0,0)`
anchor (lines 87-88), and the label and identifier are updated; on an
unchanged key the point is appended to the curve being built (lines 93-94).
The `getLastD` defaults stand for the partial `[-1]` accesses of the
source, which are reached only with a non-empty curve list.  Finally
`elapsed_seconds` advances by `status_timer` (line 97). -/
def applyRecordPoint (cfg : HashcatConfig) (st : ParseState) (guesses x_value : ℚ)
    (y_value : Json) (key : AttackKey) : ParseState :=
  let st' :=
    if keyDiffers key st.current_identifier then
      match st.current_identifier with
      | some _ =>
          { st with
            curves_x := st.curves_x ++ [[(st.curves_x.getLastD []).getLastD 0, x_value]],
            curves_y := st.curves_y ++ [[(st.curves_y.getLastD []).getLastD (Json.num 0), y_value]],
            label_list := st.label_list ++ [key],
            current_identifier := some key,
            guesses := guesses }
      | none =>
          { st with
            curves_x := st.curves_x ++ [[0, x_value]],
            curves_y := st.curves_y ++ [[Json.num 0, y_value]],
            label_list := st.label_list ++ [key],
            current_identifier := some key,
            guesses := guesses }
    else
      { st with
        curves_x := st.curves_x.dropLast ++ [(st.curves_x.getLastD []) ++ [x_value]],
        curves_y := st.curves_y.dropLast ++ [(st.curves_y.getLastD []) ++ [y_value]],
        guesses := guesses }
  { st' with elapsed_seconds := st'.elapsed_seconds + cfg.status_timer }

/-- Per-record processing (lines 49-97 of the source, after a successful
`json.loads`): extract `progress`, accumulate `guesses`, extract
`recovered_hashes` with the degenerate-total substitution (line 57),
compute the axis values, extract the attack key, and update the curves.
Any of the extraction steps can raise, and no handler catches it. -/
def processRecord (cfg : HashcatConfig) (st : ParseState)
    (data : JsonFields) : Except PyErr ParseState := do
  let progressJson ← pySubscript
    (dictGet data "progress" (Json.arr (JsonList.cons (Json.num 0) .nil))) 0
  let progress ← pyNum progressJson
  let guesses := st.guesses + progress
  let recovered := dictGet data "recovered_hashes"
    (Json.arr (JsonList.cons (Json.num 0) (JsonList.cons (Json.num 0) .nil)))
  let cracked ← pySubscript recovered 0
  let recoveredTotal ← pyNum (← pySubscript recovered 1)
  let total : ℚ := if recoveredTotal > 0 then recoveredTotal else 1
  let x_value := xValue cfg st.elapsed_seconds guesses
  let y_value ← yValue cfg cracked total
  let key ← extractAttackKey data
  pure (applyRecordPoint cfg st guesses x_value y_value key)

/-- The `(x, y)` point computed for one record (lines 52-69 of the
source): the value-extraction prefix of `processRecord`, restated on its
own so that theorems can name the point a record contributes when
processed from a given state. -/
def recordXY (cfg : HashcatConfig) (st : ParseState)
    (data : JsonFields) : Except PyErr (ℚ × Json) := do
  let progressJson ← pySubscript
    (dictGet data "progress" (Json.arr (JsonList.cons (Json.num 0) .nil))) 0
  let progress ← pyNum progressJson
  let guesses := st.guesses + progress
  let recovered := dictGet data "recovered_hashes"
    (Json.arr (JsonList.cons (Json.num 0) (JsonList.cons (Json.num 0) .nil)))
  let cracked ← pySubscript recovered 0
  let recoveredTotal ← pyNum (← pySubscript recovered 1)
  let total : ℚ := if recoveredTotal > 0 then recoveredTotal else 1
  let x_value := xValue cfg st.elapsed_seconds guesses
  let y_value ← yValue cfg cracked total
  pure (x_value, y_value)

/-- Record-level run of the parse loop over already-decoded records,
threading the state; the first uncaught exception aborts the whole parse.
-/
def runRecords (cfg : HashcatConfig) (st : ParseState) :
    List JsonFields → Except PyErr ParseState
  | [] => .ok st
  | r :: rs => do runRecords cfg (← processRecord cfg st r) rs

/-- Record-level `parse_status_file`: run the loop from the initial state
over a stream of already-decoded records and return the
`(curves_x, curves_y, label_list)` triple of line 102. -/
def parseRecords (cfg : HashcatConfig) (records : List JsonFields) :
    Except PyErr (List (List ℚ) × List (List Json) × List AttackKey) :=
  (runRecords cfg initialState records).map fun st =>
    (st.curves_x, st.curves_y, st.label_list)

/-- Per-line processing (lines 43-100): strip the line, skip it unless it
starts with a brace, decode it, skip it when `json.loads` raises
`json.JSONDecodeError` (the `except ... continue` of lines 99-100), and
otherwise process the decoded record. -/
def processLine (cfg : HashcatConfig) (decode : String → Option JsonFields)
    (st : ParseState) (line : String) : Except PyErr ParseState :=
  let stripped := pyStrip line
  if !(pyStartsWith stripped "\x7b") then .ok st
  else
    match decode stripped with
    | none => .ok st
    | some data => processRecord cfg st data

/-- Line-level run of the parse loop over the lines of the file. -/
def runLines (cfg : HashcatConfig) (decode : String → Option JsonFields)
    (st : ParseState) : List String → Except PyErr ParseState
  | [] => .ok st
  | l :: ls => do runLines cfg decode (← processLine cfg decode st l) ls

/-- Line-level `parse_status_file` over the list of lines of the source
file (an existing file; a missing one returns the empty triple before the
loop), parameterized by the external `json.loads`. -/
def parse_status_file (cfg : HashcatConfig)
    (decode : String → Option JsonFields) (lines : List String) :
    Except PyErr (List (List ℚ) × List (List Json) × List AttackKey) :=
  (runLines cfg decode initialState lines).map fun st =>
    (st.curves_x, st.curves_y, st.label_list)

/-- Python slice `l[::n]` for a positive step `n`: the elements at indices
`0, n, 2n, ...`. -/
def sliceEvery : List α → Nat → List α
  | [], _ => []
  | a :: t, n => a :: sliceEvery (t.drop (n - 1)) n
termination_by l _ => l.length
decreasing_by
  simp only [List.length_drop, List.length_cons]
  omega

/-- Downsampling of one curve in `_create_figure` (lines 253-264): a curve
longer than 1000 points is replaced by its `[::60]` slice, with the true
final point appended when the last index is not a multiple of the stride;
shorter curves pass through unchanged. -/
def downsampleCurve (curve : List α) : List α :=
  if curve.length > 1000 then
    let sampled := sliceEvery curve 60
    if (curve.length - 1) % 60 ≠ 0 then
      match curve.getLast? with
      | some a => sampled ++ [a]
      | none => sampled
    else sampled
  else curve

/-- Transition count of the parse loop: how many records trigger the
`key != current_identifier` branch, starting from a given retained
identifier, for a given stream of extracted keys.  The identifier is
updated exactly when the branch fires, as in the source; for key streams
whose comparisons behave as an equality (all hashcat logs) this is the
number of maximal runs of identical keys. -/
def runCount (cur : Option AttackKey) : List AttackKey → Nat
  | [] => 0
  | k :: ks => if keyDiffers k cur then 1 + runCount (some k) ks else runCount cur ks

/-- Key extraction mapped over a record stream, failing where extraction
fails. -/
def extractKeys : List JsonFields → Except PyErr (List AttackKey)
  | [] => .ok []
  | r :: rs => do
      let k ← extractAttackKey r
      let ks ← extractKeys rs
      pure (k :: ks)

/-- Phase identifier as the specification words it for claim C2: the pair
of the raw `time_start` value and the potfile-normalized `guess_base`,
without `guess_mod`.  This is the spec-side definition to compare against
the key the code builds. -/
def spec_phase_identifier (data : JsonFields) : Json × String :=
  let guessFields :=
    match dictGet data "guess" (Json.obj .nil) with
    | Json.obj fs => fs
    | _ => .nil
  let gb :=
    match dictGet guessFields "guess_base" (Json.str "unknown") with
    | Json.str s => s
    | _ => "unknown"
  (dictGet data "time_start" (Json.str "unknown"),
   pyReplace gb "autocat_new_cracked_potfile" "potfile")

/-- Equality of spec-side phase identifiers (Python equality on the
`time_start` component). -/
def specPhaseEq (a b : Json × String) : Bool :=
  Json.pyEq a.fst b.fst && (a.snd == b.snd)

/-- Number of maximal runs of identical spec-side phase identifiers in a
record stream. -/
def specRunCount : List (Json × String) → Nat
  | [] => 0
  | k :: ks => 1 + specRunCountAux k ks
where
  specRunCountAux (prev : Json × String) : List (Json × String) → Nat
    | [] => 0
    | k :: ks => if specPhaseEq prev k then specRunCountAux prev ks
                 else 1 + specRunCountAux k ks

/-- Shape check of a decoded record against the documented input format
(section 6 of the spec): `progress`, when present, is a non-empty list
with a numeric first element; `recovered_hashes`, when present, is a list
of at least two numbers; `guess`, when present, is an object whose
`guess_base`, when present, is a string.  `time_start` and `guess_mod` are
unconstrained. -/
def wellShapedRecord (data : JsonFields) : Bool :=
  (match dictGet data "progress" (Json.arr (JsonList.cons (Json.num 0) .nil)) with
   | Json.arr (JsonList.cons (Json.num _) _) => true
   | _ => false) &&
  (match dictGet data "recovered_hashes"
      (Json.arr (JsonList.cons (Json.num 0) (JsonList.cons (Json.num 0) .nil))) with
   | Json.arr (JsonList.cons (Json.num _) (JsonList.cons (Json.num _) _)) => true
   | _ => false) &&
  (match dictGet data "guess" (Json.obj .nil) with
   | Json.obj gf =>
       (match dictGet gf "guess_base" (Json.str "unknown") with
        | Json.str _ => true
        | _ => false)
   | _ => false)

/-- Per-line shape check for a whole file: every line that would decode
must decode to a record of the documented shape. -/
def decodableShapesOk (decode : String → Option JsonFields) (lines : List String) : Bool :=
  lines.all fun l =>
    match decode (pyStrip l) with
    | some o => wellShapedRecord o
    | none => true

/-- Kept lines of the line loop: stripped line starts with a brace and
decodes successfully; all other lines are skipped by the loop. -/
def keptLine (decode : String → Option JsonFields) (l : String) : Bool :=
  pyStartsWith (pyStrip l) "\x7b" && (decode (pyStrip l)).isSome

/-- Stitching relation on a list of curves: every curve after the first
opens with the closing value of its predecessor. -/
def stitched (dflt : α) (curves : List (List α)) : Prop :=
  List.Chain' (fun a b => b.head? = some (a.getLastD dflt)) curves

/-- StateInv collects the structural invariants of the parse-loop state:
the three result lists run in parallel, every curve has at least two
points, the current identifier is set exactly once curves exist, and both
coordinate lists are stitched at every curve boundary. -/
def StateInv (st : ParseState) : Prop :=
  st.curves_x.length = st.curves_y.length ∧
  st.curves_y.length = st.label_list.length ∧
  (∀ c ∈ st.curves_x, 2 ≤ c.length) ∧
  (∀ c ∈ st.curves_y, 2 ≤ c.length) ∧
  (st.current_identifier = none ↔ st.curves_x = []) ∧
  stitched 0 st.curves_x ∧
  stitched (Json.num 0) st.curves_y

/-- Record of Scenario B: `guess_base="dict1"`, `progress=[10]`,
`recovered_hashes=[2,100]`. -/
def recordDict1 : JsonFields := JsonFields.ofList
  [("guess", Json.obj (JsonFields.ofList [("guess_base", Json.str "dict1")])),
   ("progress", Json.arr (JsonList.ofList [Json.num 10])),
   ("recovered_hashes", Json.arr (JsonList.ofList [Json.num 2, Json.num 100]))]

/-- Record identical to `recordDict1` except for `guess_base="dict2"`,
so its attack key differs. -/
def recordDict2 : JsonFields := JsonFields.ofList
  [("guess", Json.obj (JsonFields.ofList [("guess_base", Json.str "dict2")])),
   ("progress", Json.arr (JsonList.ofList [Json.num 10])),
   ("recovered_hashes", Json.arr (JsonList.ofList [Json.num 2, Json.num 100]))]

/-- Record with `guess_base="dict1"` and `guess_mod="rule1"` and no other
fields. -/
def recordMod1 : JsonFields := JsonFields.ofList
  [("guess", Json.obj (JsonFields.ofList
     [("guess_base", Json.str "dict1"), ("guess_mod", Json.str "rule1")]))]

/-- Record with `guess_base="dict1"` and `guess_mod="rule2"`: same
`time_start` and `guess_base` as `recordMod1`, different `guess_mod`. -/
def recordMod2 : JsonFields := JsonFields.ofList
  [("guess", Json.obj (JsonFields.ofList
     [("guess_base", Json.str "dict1"), ("guess_mod", Json.str "rule2")]))]

/-- Record whose only field is `recovered_hashes=[c,t]` (Scenario D uses
`c=5`, `t=0`). -/
def recordRecovered (c t : ℚ) : JsonFields :=
  JsonFields.cons "recovered_hashes"
    (Json.arr (JsonList.cons (Json.num c) (JsonList.cons (Json.num t) .nil))) .nil

/-- Decoder of a single line holding a record whose `progress` field is the
empty list: valid JSON, but outside the documented shapes. -/
def decodeProgressEmpty : String → Option JsonFields :=
  fun s =>
    if s = "\x7b\"progress\": []\x7d" then
      some (JsonFields.cons "progress" (Json.arr .nil) .nil)
    else none

/-- Decoder of a single well-shaped line (an empty JSON object, so every
field takes its documented default). -/
def decodeEmptyObject : String → Option JsonFields :=
  fun s => if s = "\x7b\x7d" then some .nil else none

/-- State of the parse loop right after processing `recordDict1` first,
with the default configuration: one curve `[0, 10]` with percentages
`[0, 2]`, key `unknown/dict1`. -/
def stateAfterDict1 : ParseState :=
  ⟨[[0, 10]], [[Json.num 0, Json.num 2]], [("unknown/dict1", Json.null)],
   10, some ("unknown/dict1", Json.null), 1⟩

/-- State of the parse loop after processing `recordDict1` then
`recordDict2`, with the default configuration. -/
def stateAfterDict12 : ParseState :=
  ⟨[[0, 10], [10, 20]],
   [[Json.num 0, Json.num 2], [Json.num 2, Json.num 2]],
   [("unknown/dict1", Json.null), ("unknown/dict2", Json.null)],
   20, some ("unknown/dict2", Json.null), 2⟩

/-- Curve of 1002 zero points, long enough to trigger downsampling with a
final index (1001) that is not a multiple of 60. -/
def longCurve : List ℚ := List.replicate 1002 0

/-- Inversion of a successful `processRecord`: the result is the pure
curve update applied to values among which the key comes from
`extractAttackKey`. -/
theorem processRecord_ok_shape {cfg : HashcatConfig} {st : ParseState}
    {data : JsonFields} {st' : ParseState}
    (h : processRecord cfg st data = .ok st') :
    ∃ g x y k, extractAttackKey data = .ok k ∧
      st' = applyRecordPoint cfg st g x y k := by
  unfold processRecord at h
  simp only [bind, Except.bind, pure] at h
  repeat' split at h
  all_goals first
    | (exact absurd h (by simp))
    | (rename_i k hk
       exact ⟨_, _, _, k, hk, (Except.ok.injEq _ _ ▸ h).symm⟩)

/-- Strengthened inversion of a successful `processRecord`: the result is
the pure curve update applied at exactly the record's computed `(x, y)`
point (as given by `recordXY`) and the record's extracted key. -/
theorem processRecord_ok_xy {cfg : HashcatConfig} {st : ParseState}
    {data : JsonFields} {st' : ParseState}
    (h : processRecord cfg st data = .ok st') :
    ∃ g xv yv k, recordXY cfg st data = .ok (xv, yv) ∧
      extractAttackKey data = .ok k ∧
      st' = applyRecordPoint cfg st g xv yv k := by
  unfold processRecord at h
  simp only [bind, Except.bind, pure] at h
  cases h1 : pySubscript
      (dictGet data "progress" (Json.arr (JsonList.cons (Json.num 0) JsonList.nil))) 0 with
  | error e => simp only [h1] at h; cases h
  | ok pj =>
    simp only [h1] at h
    cases h2 : pyNum pj with
    | error e => simp only [h2] at h; cases h
    | ok p =>
      simp only [h2] at h
      cases h3 : pySubscript
          (dictGet data "recovered_hashes"
            (Json.arr (JsonList.cons (Json.num 0) (JsonList.cons (Json.num 0) JsonList.nil)))) 0 with
      | error e => simp only [h3] at h; cases h
      | ok cracked =>
        simp only [h3] at h
        cases h4 : pySubscript
            (dictGet data "recovered_hashes"
              (Json.arr (JsonList.cons (Json.num 0) (JsonList.cons (Json.num 0) JsonList.nil)))) 1 with
        | error e => simp only [h4] at h; cases h
        | ok r1 =>
          simp only [h4] at h
          cases h5 : pyNum r1 with
          | error e => simp only [h5] at h; cases h
          | ok rt =>
            simp only [h5] at h
            cases h6 : yValue cfg cracked (if rt > 0 then rt else 1) with
            | error e => simp only [h6] at h; cases h
            | ok yv =>
              simp only [h6] at h
              cases h7 : extractAttackKey data with
              | error e => simp only [h7] at h; cases h
              | ok k =>
                simp only [h7] at h
                cases h
                refine ⟨st.guesses + p,
                  xValue cfg st.elapsed_seconds (st.guesses + p), yv, k, ?_, rfl, rfl⟩
                simp [recordXY, h1, h2, h3, h4, h5, h6, bind, Except.bind,
                  pure, Except.pure]

/-- On a key change, `applyRecordPoint` appends the key to the labels and
retains it as the current identifier. -/
theorem applyRecordPoint_new (cfg : HashcatConfig) (st : ParseState)
    (g x : ℚ) (y : Json) (k : AttackKey)
    (hd : keyDiffers k st.current_identifier = true) :
    (applyRecordPoint cfg st g x y k).label_list = st.label_list ++ [k] ∧
    (applyRecordPoint cfg st g x y k).current_identifier = some k := by
  unfold applyRecordPoint
  cases hc : st.current_identifier with
  | none => simp [keyDiffers]
  | some c => rw [hc] at hd; simp [hd]

/-- On an unchanged key, `applyRecordPoint` leaves the labels and the
current identifier alone. -/
theorem applyRecordPoint_same (cfg : HashcatConfig) (st : ParseState)
    (g x : ℚ) (y : Json) (k : AttackKey)
    (hd : keyDiffers k st.current_identifier = false) :
    (applyRecordPoint cfg st g x y k).label_list = st.label_list ∧
    (applyRecordPoint cfg st g x y k).current_identifier = st.current_identifier := by
  unfold applyRecordPoint
  simp [hd]

/-- Last element of a non-empty list, through the default-valued accessor,
is a member. -/
theorem getLastD_mem {α : Type _} {l : List α} (d : α) (h : l ≠ []) :
    l.getLastD d ∈ l := by
  rw [List.getLastD_eq_getLast?, List.getLast?_eq_getLast_of_ne_nil h]
  exact List.getLast_mem h

/-- Appending a fresh curve that opens at the closing value of the last
curve preserves stitching. -/
theorem stitched_append_new {α : Type _} {dflt : α} {xss : List (List α)}
    (hs : stitched dflt xss) (x : α) :
    stitched dflt (xss ++ [[(xss.getLastD []).getLastD dflt, x]]) := by
  refine List.Chain'.append hs (List.chain'_singleton _) ?_
  intro a ha b hb
  simp only [List.head?_cons, Option.mem_def, Option.some.injEq] at hb
  subst hb
  simp only [List.head?_cons, Option.mem_def] at ha ⊢
  simp [List.getLastD_eq_getLast?, ha]

/-- Extending the last curve by one point preserves stitching, as long as
no curve is empty (so that the head of the last curve is unchanged). -/
theorem stitched_extend_last {α : Type _} {dflt : α} {xss : List (List α)}
    (hs : stitched dflt xss) (hne : ∀ c ∈ xss, c ≠ []) (x : α) :
    stitched dflt (xss.dropLast ++ [(xss.getLastD []) ++ [x]]) := by
  by_cases hnil : xss = []
  · subst hnil
    simp [stitched]
  · have hdecomp := List.dropLast_append_getLast hnil
    have hlastD : xss.getLastD [] = xss.getLast hnil := by
      rw [List.getLastD_eq_getLast?, List.getLast?_eq_getLast_of_ne_nil hnil]
      rfl
    rw [← hdecomp] at hs
    obtain ⟨h1, _, h3⟩ := List.chain'_append.mp hs
    refine List.Chain'.append h1 (List.chain'_singleton _) ?_
    intro a ha b hb
    simp only [List.head?_cons, Option.mem_def, Option.some.injEq] at hb
    subst hb
    have hlast_ne : xss.getLast hnil ≠ [] := hne _ (List.getLast_mem hnil)
    rw [hlastD, List.head?_append_of_ne_nil _ hlast_ne]
    exact h3 a ha (xss.getLast hnil) (by simp)

/-- StateInv is preserved by the pure curve update of one record. -/
theorem applyRecordPoint_inv {cfg : HashcatConfig} {st : ParseState}
    {g x : ℚ} {y : Json} {k : AttackKey} (hinv : StateInv st) :
    StateInv (applyRecordPoint cfg st g x y k) := by
  obtain ⟨hlen1, hlen2, hcx2, hcy2, hiff, hsx, hsy⟩ := hinv
  unfold applyRecordPoint
  cases hc : st.current_identifier with
  | none =>
    have hx0 : st.curves_x = [] := hiff.mp hc
    have hy0 : st.curves_y = [] := by
      have := hlen1
      rw [hx0] at this
      exact List.length_eq_zero.mp this.symm
    have hl0 : st.label_list = [] := by
      have := hlen2
      rw [hy0] at this
      exact List.length_eq_zero.mp this.symm
    refine ⟨?_, ?_, ?_, ?_, ?_, ?_, ?_⟩ <;>
      simp [keyDiffers, hx0, hy0, hl0, stitched]
  | some c =>
    have hxne : st.curves_x ≠ [] := fun hx => by
      rw [hiff.mpr hx] at hc
      cases hc
    have hyne : st.curves_y ≠ [] := fun hy => by
      have : st.curves_x.length = 0 := by rw [hlen1, hy]; rfl
      exact hxne (List.length_eq_zero.mp this)
    cases hd : keyDiffers k (some c) with
    | true =>
      refine ⟨?_, ?_, ?_, ?_, ?_, ?_, ?_⟩ <;> simp [hd]
      · exact hlen1
      · exact hlen2
      · intro a ha
        rcases ha with ha | ha
        · exact hcx2 a ha
        · subst ha; simp
      · intro a ha
        rcases ha with ha | ha
        · exact hcy2 a ha
        · subst ha; simp
      · simpa [List.getLastD_eq_getLast?] using stitched_append_new hsx x
      · simpa [List.getLastD_eq_getLast?] using stitched_append_new hsy y
    | false =>
      have hx1 : st.curves_x.length ≠ 0 := fun h0 => hxne (List.length_eq_zero.mp h0)
      have hy1 : st.curves_y.length ≠ 0 := fun h0 => hyne (List.length_eq_zero.mp h0)
      refine ⟨?_, ?_, ?_, ?_, ?_, ?_, ?_⟩ <;> simp [hd]
      · omega
      · omega
      · intro a ha
        rcases ha with ha | ha
        · exact hcx2 a (List.dropLast_subset _ ha)
        · subst ha
          have hm : st.curves_x.getLast?.getD [] ∈ st.curves_x := by
            rw [← List.getLastD_eq_getLast?]
            exact getLastD_mem [] hxne
          have := hcx2 _ hm
          simp only [List.length_append, List.length_cons, List.length_nil]
          omega
      · intro a ha
        rcases ha with ha | ha
        · exact hcy2 a (List.dropLast_subset _ ha)
        · subst ha
          have hm : st.curves_y.getLast?.getD [] ∈ st.curves_y := by
            rw [← List.getLastD_eq_getLast?]
            exact getLastD_mem [] hyne
          have := hcy2 _ hm
          simp only [List.length_append, List.length_cons, List.length_nil]
          omega
      · simpa [List.getLastD_eq_getLast?] using stitched_extend_last hsx
          (fun c hcm hce => by
            have := hcx2 c hcm
            rw [hce] at this
            simp at this) x
      · simpa [List.getLastD_eq_getLast?] using stitched_extend_last hsy
          (fun c hcm hce => by
            have := hcy2 c hcm
            rw [hce] at this
            simp at this) y

/-- Initial parse state satisfies the invariant. -/
theorem initialState_inv : StateInv initialState := by
  refine ⟨rfl, rfl, ?_, ?_, ?_, ?_, ?_⟩ <;> simp [initialState, stitched]

/-- StateInv is preserved along any successful run of the record loop. -/
theorem runRecords_inv {cfg : HashcatConfig} :
    ∀ {rs : List JsonFields} {st st' : ParseState},
      StateInv st → runRecords cfg st rs = .ok st' → StateInv st'
  | [], st, st', hinv, h => by
      unfold runRecords at h
      cases h
      exact hinv
  | r :: rs, st, st', hinv, h => by
      unfold runRecords at h
      simp only [bind, Except.bind] at h
      cases h1 : processRecord cfg st r with
      | error e => rw [h1] at h; cases h
      | ok st1 =>
          rw [h1] at h
          obtain ⟨g, x, y, k, _, hst1⟩ := processRecord_ok_shape h1
          exact runRecords_inv (hst1 ▸ applyRecordPoint_inv hinv) h

/-- Inversion of a successful `parseRecords`: the triple is the projection
of a successful run from the initial state. -/
theorem parseRecords_ok_inv {cfg : HashcatConfig} {rs : List JsonFields}
    {out : List (List ℚ) × List (List Json) × List AttackKey}
    (h : parseRecords cfg rs = .ok out) :
    ∃ st, runRecords cfg initialState rs = .ok st ∧
      out = (st.curves_x, st.curves_y, st.label_list) := by
  unfold parseRecords at h
  cases h1 : runRecords cfg initialState rs with
  | error e => rw [h1] at h; cases h
  | ok st =>
      rw [h1] at h
      cases h
      exact ⟨st, rfl, rfl⟩

/-- Adjacent elements of a chained list, addressed positionally, are
related. -/
theorem chain'_get? {α : Type _} {R : α → α → Prop} :
    ∀ {l : List α}, List.Chain' R l → ∀ i a b,
      l.get? i = some a → l.get? (i + 1) = some b → R a b
  | [], _, i, a, b, ha, _ => by simp at ha
  | [x], _, i, a, b, _, hb => by cases i <;> simp at hb
  | x :: y :: l, h, 0, a, b, ha, hb => by
      simp only [List.get?] at ha hb
      cases ha
      cases hb
      exact (List.chain'_cons.mp h).1
  | x :: y :: l, h, i + 1, a, b, ha, hb =>
      chain'_get? (List.chain'_cons.mp h).2 i a b ha hb

/-- Concrete evaluation of the parse on two records with different
`guess_base` values (used to instantiate several theorems): two stitched
curves result. -/
theorem parse_dict12_eval : parseRecords defaultConfig [recordDict1, recordDict2] =
    .ok ([[0, 10], [10, 20]], [[Json.num 0, Json.num 2], [Json.num 2, Json.num 2]],
         [("unknown/dict1", Json.null), ("unknown/dict2", Json.null)]) := by
  simp [parseRecords, runRecords, processRecord, applyRecordPoint, extractAttackKey,
    dictGet, pySubscript, pyNum, pyGetAttrFields, pyReplaceTarget, pyReplace,
    replaceCharsFuel, xValue, yValue, keyDiffers, Json.pyEq, Json.pyStr,
    JsonFields.lookup, JsonFields.ofList, JsonList.ofList, JsonList.get?,
    defaultConfig, initialState, bind, Except.bind, pure, Except.pure, Except.map,
    List.isPrefixOf, recordDict1, recordDict2]
  norm_num

/-- C9: the three sequences returned by the parse always have equal
lengths, and the equality already holds in the loop state after any number
of processed records, since every branch appends to all three lists or to
none of them. -/
theorem c9_parallel_list_lengths (cfg : HashcatConfig) :
    (∀ rs cx cy ls, parseRecords cfg rs = .ok (cx, cy, ls) →
        cx.length = cy.length ∧ cy.length = ls.length) ∧
    (∀ rs st, runRecords cfg initialState rs = .ok st →
        st.curves_x.length = st.curves_y.length ∧
        st.curves_y.length = st.label_list.length) := by
  constructor
  · intro rs cx cy ls h
    obtain ⟨st, hrun, hout⟩ := parseRecords_ok_inv h
    obtain ⟨h1, h2, -⟩ := runRecords_inv initialState_inv hrun
    cases hout
    exact ⟨h1, h2⟩
  · intro rs st hrun
    obtain ⟨h1, h2, -⟩ := runRecords_inv initialState_inv hrun
    exact ⟨h1, h2⟩

/-- Witness for C9 at a concrete two-record stream. -/
theorem c9_parallel_list_lengths_witness :
    ([[(0 : ℚ), 10], [10, 20]] : List (List ℚ)).length =
      ([[Json.num 0, Json.num 2], [Json.num 2, Json.num 2]] : List (List Json)).length ∧
    ([[Json.num 0, Json.num 2], [Json.num 2, Json.num 2]] : List (List Json)).length =
      ([("unknown/dict1", Json.null), ("unknown/dict2", Json.null)] : List AttackKey).length :=
  (c9_parallel_list_lengths defaultConfig).1 [recordDict1, recordDict2] _ _ _
    parse_dict12_eval

/-- C10: every curve in the returned output has at least two points: each
curve is created with exactly two points and only ever grows. -/
theorem c10_curves_have_two_points (cfg : HashcatConfig) (rs : List JsonFields)
    (cx : List (List ℚ)) (cy : List (List Json)) (ls : List AttackKey)
    (h : parseRecords cfg rs = .ok (cx, cy, ls)) :
    (∀ c ∈ cx, 2 ≤ c.length) ∧ (∀ c ∈ cy, 2 ≤ c.length) := by
  obtain ⟨st, hrun, hout⟩ := parseRecords_ok_inv h
  obtain ⟨-, -, h3, h4, -⟩ := runRecords_inv initialState_inv hrun
  cases hout
  exact ⟨h3, h4⟩

/-- Witness for C10 at a concrete two-record stream and its first curve. -/
theorem c10_curves_have_two_points_witness :
    2 ≤ ([(0 : ℚ), 10] : List ℚ).length :=
  (c10_curves_have_two_points defaultConfig [recordDict1, recordDict2] _ _ _
      parse_dict12_eval).1 [0, 10] (by simp)

/-- C5: at every boundary between consecutive returned curves, the last
point of curve `k` equals the first point of curve `k+1`, in both
coordinates. -/
theorem c5_stitching_continuity (cfg : HashcatConfig) (rs : List JsonFields)
    (cx : List (List ℚ)) (cy : List (List Json)) (ls : List AttackKey)
    (h : parseRecords cfg rs = .ok (cx, cy, ls)) :
    (∀ i a b, cx.get? i = some a → cx.get? (i + 1) = some b →
        a.getLast? = b.head?) ∧
    (∀ i a b, cy.get? i = some a → cy.get? (i + 1) = some b →
        a.getLast? = b.head?) := by
  obtain ⟨st, hrun, hout⟩ := parseRecords_ok_inv h
  obtain ⟨-, -, hcx2, hcy2, -, hsx, hsy⟩ := runRecords_inv initialState_inv hrun
  cases hout
  constructor
  · intro i a b ha hb
    have hR := chain'_get? hsx i a b ha hb
    have hamem : a ∈ st.curves_x := List.get?_mem ha
    have hane : a ≠ [] := by
      intro h0
      have := hcx2 a hamem
      rw [h0] at this
      simp at this
    rw [hR, List.getLastD_eq_getLast?, List.getLast?_eq_getLast_of_ne_nil hane]
    rfl
  · intro i a b ha hb
    have hR := chain'_get? hsy i a b ha hb
    have hamem : a ∈ st.curves_y := List.get?_mem ha
    have hane : a ≠ [] := by
      intro h0
      have := hcy2 a hamem
      rw [h0] at this
      simp at this
    rw [hR, List.getLastD_eq_getLast?, List.getLast?_eq_getLast_of_ne_nil hane]
    rfl

/-- Witness for C5: at the concrete two-curve output, the first curve
closes at the point where the second curve opens. -/
theorem c5_stitching_continuity_witness :
    ([(0 : ℚ), 10] : List ℚ).getLast? = ([(10 : ℚ), 20] : List ℚ).head? :=
  (c5_stitching_continuity defaultConfig [recordDict1, recordDict2] _ _ _
      parse_dict12_eval).1 0 [0, 10] [10, 20] rfl rfl

/-- Labels grow by exactly the number of key transitions of the processed
stream, and the retained identifier follows along, matching `runCount`. -/
theorem runRecords_label_count {cfg : HashcatConfig} :
    ∀ {rs : List JsonFields} {st st' : ParseState} {ks : List AttackKey},
      runRecords cfg st rs = .ok st' → extractKeys rs = .ok ks →
      st'.label_list.length = st.label_list.length + runCount st.current_identifier ks
  | [], st, st', ks, h, hk => by
      unfold runRecords at h
      unfold extractKeys at hk
      cases h
      cases hk
      simp [runCount]
  | r :: rs, st, st', ks, h, hk => by
      unfold runRecords at h
      unfold extractKeys at hk
      simp only [bind, Except.bind, pure] at h hk
      cases h1 : processRecord cfg st r with
      | error e => rw [h1] at h; cases h
      | ok st1 =>
        rw [h1] at h
        cases h2 : extractAttackKey r with
        | error e => rw [h2] at hk; cases hk
        | ok k =>
          rw [h2] at hk
          cases h3 : extractKeys rs with
          | error e => rw [h3] at hk; cases hk
          | ok ks2 =>
            rw [h3] at hk
            cases hk
            obtain ⟨g, x, y, k0, hk0, hst1⟩ := processRecord_ok_shape h1
            have hkk : k = k0 := by rw [h2] at hk0; cases hk0; rfl
            subst hkk
            subst hst1
            have ih := runRecords_label_count h h3
            cases hd : keyDiffers k st.current_identifier with
            | true =>
                obtain ⟨hl, hcur⟩ := applyRecordPoint_new cfg st g x y k hd
                rw [hl, hcur] at ih
                rw [ih]
                simp [runCount, hd]
                omega
            | false =>
                obtain ⟨hl, hcur⟩ := applyRecordPoint_same cfg st g x y k hd
                rw [hl, hcur] at ih
                rw [ih]
                simp [runCount, hd]

/-- Concrete evaluation of the parse on two records that differ only in
`guess_mod`: the code starts a second curve. -/
theorem parse_mod12_eval : parseRecords defaultConfig [recordMod1, recordMod2] =
    .ok ([[0, 0], [0, 0]], [[Json.num 0, Json.num 0], [Json.num 0, Json.num 0]],
         [("unknown/dict1", Json.str "rule1"), ("unknown/dict1", Json.str "rule2")]) := by
  simp [parseRecords, runRecords, processRecord, applyRecordPoint, extractAttackKey,
    dictGet, pySubscript, pyNum, pyGetAttrFields, pyReplaceTarget, pyReplace,
    replaceCharsFuel, xValue, yValue, keyDiffers, Json.pyEq, Json.pyStr,
    JsonFields.lookup, JsonFields.ofList, JsonList.ofList, JsonList.get?,
    defaultConfig, initialState, bind, Except.bind, pure, Except.pure, Except.map,
    List.isPrefixOf, recordMod1, recordMod2]

/-- C2 counterexample: two records with identical `time_start` and
`guess_base` but different `guess_mod` values form one maximal run of the
phase identifier the claim describes (the pair of `time_start` and
normalized `guess_base`), yet the code returns two curves and two labels,
because the key built on line 77 also contains `guess_mod`. -/
theorem c2_counterexample :
    parseRecords defaultConfig [recordMod1, recordMod2] =
      .ok ([[0, 0], [0, 0]], [[Json.num 0, Json.num 0], [Json.num 0, Json.num 0]],
           [("unknown/dict1", Json.str "rule1"), ("unknown/dict1", Json.str "rule2")]) ∧
    specRunCount [spec_phase_identifier recordMod1, spec_phase_identifier recordMod2] = 1 ∧
    ([("unknown/dict1", Json.str "rule1"), ("unknown/dict1", Json.str "rule2")]
        : List AttackKey).length = 2 ∧
    (2 : Nat) ≠ 1 := by
  refine ⟨parse_mod12_eval, ?_, rfl, by decide⟩
  rfl

/-- C2 (amended): the number of labels (and hence curves) returned equals
the number of key transitions the loop detects, where the key is the pair
of the formatted `time_start/guess_base` string (potfile-normalized) AND
`guess_mod`, compared against the retained identifier; for key streams on
which the Python comparison behaves as equality this is the number of
maximal runs of identical keys.  A change in `guess_mod` alone does start
a new curve. -/
theorem c2_curve_count (cfg : HashcatConfig) (rs : List JsonFields)
    (cx : List (List ℚ)) (cy : List (List Json)) (ls : List AttackKey)
    (ks : List AttackKey)
    (h : parseRecords cfg rs = .ok (cx, cy, ls))
    (hk : extractKeys rs = .ok ks) :
    ls.length = runCount none ks := by
  obtain ⟨st, hrun, hout⟩ := parseRecords_ok_inv h
  cases hout
  have := runRecords_label_count hrun hk
  simpa [initialState] using this

/-- Witness for C2 (amended) at the two-record stream differing only in
`guess_mod`: two labels, two transitions. -/
theorem c2_curve_count_witness :
    ([("unknown/dict1", Json.str "rule1"), ("unknown/dict1", Json.str "rule2")]
        : List AttackKey).length =
      runCount none [("unknown/dict1", Json.str "rule1"),
                     ("unknown/dict1", Json.str "rule2")] :=
  c2_curve_count defaultConfig [recordMod1, recordMod2] _ _ _ _
    parse_mod12_eval rfl

/-- C1 counterexample: on two records whose keys differ (`dict1` then
`dict2`, with `x` values 10 then 20), the claim predicts that the first
curve is closed by appending the new point, so that its last x would be 20
and the second curve would open at 20.  The code instead leaves the first
curve at `[0, 10]` and opens the second curve at the previous last point
10, followed by 20. -/
theorem c1_counterexample :
    parseRecords defaultConfig [recordDict1, recordDict2] =
      .ok ([[0, 10], [10, 20]], [[Json.num 0, Json.num 2], [Json.num 2, Json.num 2]],
           [("unknown/dict1", Json.null), ("unknown/dict2", Json.null)]) ∧
    (([[(0 : ℚ), 10], [10, 20]].get? 0).getD []) = [0, 10] ∧
    (([[(0 : ℚ), 10], [10, 20]].get? 0).getD []).getLast? ≠ some 20 ∧
    (([[(0 : ℚ), 10], [10, 20]].get? 1).getD []).head? ≠ some 20 := by
  refine ⟨parse_dict12_eval, rfl, ?_, ?_⟩ <;> norm_num

/-- Helper: concrete evaluation of one record step from the state reached
after `recordDict1`, on the differing-key record `recordDict2`. -/
theorem processRecord_dict2_eval :
    processRecord defaultConfig stateAfterDict1 recordDict2 = .ok stateAfterDict12 := by
  simp [processRecord, applyRecordPoint, extractAttackKey,
    dictGet, pySubscript, pyNum, pyGetAttrFields, pyReplaceTarget, pyReplace,
    replaceCharsFuel, xValue, yValue, keyDiffers, Json.pyEq, Json.pyStr,
    JsonFields.lookup, JsonFields.ofList, JsonList.ofList, JsonList.get?,
    defaultConfig, stateAfterDict1, stateAfterDict12, bind, Except.bind,
    pure, Except.pure, List.isPrefixOf, recordDict2]
  norm_num

/-- C1 (amended): when a processed record's key differs from the current
identifier and it is not the first record overall, the previous curves are
all left unchanged, and a new curve is appended whose first point is the
previous curve's last point, followed by exactly the record's computed
`(x, y)` point (as given by `recordXY`); the key is appended to the
labels. -/
theorem c1_transition_update (cfg : HashcatConfig) (st : ParseState)
    (data : JsonFields) (st' : ParseState) (k : AttackKey) (xv : ℚ) (yv : Json)
    (hk : extractAttackKey data = .ok k)
    (hxy : recordXY cfg st data = .ok (xv, yv))
    (hd : keyDiffers k st.current_identifier = true)
    (hsome : st.current_identifier ≠ none)
    (hstep : processRecord cfg st data = .ok st') :
    st'.curves_x = st.curves_x ++ [[(st.curves_x.getLastD []).getLastD 0, xv]] ∧
    st'.curves_y = st.curves_y ++
      [[(st.curves_y.getLastD []).getLastD (Json.num 0), yv]] ∧
    st'.label_list = st.label_list ++ [k] := by
  obtain ⟨g, x0, y0, k0, hxy0, hk0, hst⟩ := processRecord_ok_xy hstep
  have hkk : k = k0 := by rw [hk0] at hk; cases hk; rfl
  subst hkk
  rw [hxy0] at hxy
  cases hxy
  subst hst
  unfold applyRecordPoint
  cases hc : st.current_identifier with
  | none => exact absurd hc hsome
  | some c =>
      rw [hc] at hd
      refine ⟨?_, ?_, ?_⟩ <;> simp [hd, List.getLastD_eq_getLast?]

/-- Helper: concrete evaluation of the computed point of `recordDict2`
from the state reached after `recordDict1`: guesses advance to 20 and the
percentage stays 2. -/
theorem recordXY_dict2_eval :
    recordXY defaultConfig stateAfterDict1 recordDict2 = .ok (20, Json.num 2) := by
  simp [recordXY, dictGet, pySubscript, pyNum, xValue, yValue,
    JsonFields.lookup, JsonFields.ofList, JsonList.ofList, JsonList.get?,
    defaultConfig, stateAfterDict1, bind, Except.bind, pure, Except.pure,
    recordDict2]
  norm_num

/-- Witness for C1 (amended) at the concrete transition from the state
after `recordDict1` to the record `recordDict2`, whose computed point is
`(20, 2)`. -/
theorem c1_transition_update_witness :
    stateAfterDict12.curves_x = stateAfterDict1.curves_x ++
      [[(stateAfterDict1.curves_x.getLastD []).getLastD 0, 20]] ∧
    stateAfterDict12.curves_y = stateAfterDict1.curves_y ++
      [[(stateAfterDict1.curves_y.getLastD []).getLastD (Json.num 0), Json.num 2]] ∧
    stateAfterDict12.label_list = stateAfterDict1.label_list ++
      [("unknown/dict2", Json.null)] :=
  c1_transition_update defaultConfig stateAfterDict1 recordDict2 stateAfterDict12
    ("unknown/dict2", Json.null) 20 (Json.num 2) rfl recordXY_dict2_eval rfl
    (by simp [stateAfterDict1]) processRecord_dict2_eval

/-- C4: on exactly three records with `guess_base="dict1"`,
`progress=[10]`, `recovered_hashes=[2,100]`, under guesses/percentage
modes, the parse returns one curve and one label, with x values
`[0, 10, 20, 30]` and y values `[0, 2, 2, 2]` (the leading point being the
synthetic anchor). -/
theorem c4_scenario_b :
    parseRecords defaultConfig [recordDict1, recordDict1, recordDict1] =
      .ok ([[0, 10, 20, 30]], [[Json.num 0, Json.num 2, Json.num 2, Json.num 2]],
           [("unknown/dict1", Json.null)]) := by
  simp [parseRecords, runRecords, processRecord, applyRecordPoint, extractAttackKey,
    dictGet, pySubscript, pyNum, pyGetAttrFields, pyReplaceTarget, pyReplace,
    replaceCharsFuel, xValue, yValue, keyDiffers, Json.pyEq, Json.pyStr,
    JsonFields.lookup, JsonFields.ofList, JsonList.ofList, JsonList.get?,
    defaultConfig, initialState, bind, Except.bind, pure, Except.pure, Except.map,
    List.isPrefixOf, recordDict1]
  norm_num

/-- C8: a record with `recovered_hashes=[c,t]` and non-positive `t` has
the divisor substituted by 1, so the percentage value is `c * 100`, and no
error is raised. -/
theorem c8_degenerate_total (c t : ℚ) (h : t ≤ 0) :
    parseRecords defaultConfig [recordRecovered c t] =
      .ok ([[0, 0]], [[Json.num 0, Json.num (c * 100)]],
           [("unknown/unknown", Json.null)]) := by
  have ht : ¬(t > 0) := not_lt.mpr h
  simp [parseRecords, runRecords, processRecord, applyRecordPoint, extractAttackKey,
    dictGet, pySubscript, pyNum, pyGetAttrFields, pyReplaceTarget, pyReplace,
    replaceCharsFuel, xValue, yValue, keyDiffers, Json.pyEq, Json.pyStr,
    JsonFields.lookup, JsonList.get?, recordRecovered,
    defaultConfig, initialState, bind, Except.bind, pure, Except.pure, Except.map,
    List.isPrefixOf, ht]

/-- Witness for C8 at Scenario D: `recovered_hashes=[5,0]` yields the
percentage 500. -/
theorem c8_degenerate_total_witness :
    parseRecords defaultConfig [recordRecovered 5 0] =
      .ok ([[0, 0]], [[Json.num 0, Json.num 500]],
           [("unknown/unknown", Json.null)]) := by
  have h := c8_degenerate_total 5 0 (by norm_num)
  norm_num at h
  exact h

/-- A record of the documented shape is processed without raising. -/
theorem processRecord_total (cfg : HashcatConfig) (st : ParseState)
    (data : JsonFields) (h : wellShapedRecord data = true) :
    ∃ st', processRecord cfg st data = .ok st' := by
  unfold wellShapedRecord at h
  simp only [Bool.and_eq_true] at h
  obtain ⟨⟨h1, h2⟩, h3⟩ := h
  split at h1
  case _ q tl hp =>
    split at h2
    case _ c t tl2 hr =>
      split at h3
      case _ gf hg =>
        split at h3
        case _ s hgb =>
          cases he : processRecord cfg st data with
          | ok st1 => exact ⟨st1, rfl⟩
          | error err =>
              by_cases hcount : cfg.y_axis_type = "count" <;>
                simp [processRecord, hp, hr, hg, hgb, pySubscript, pyNum,
                  JsonList.get?, extractAttackKey, pyGetAttrFields, pyReplaceTarget,
                  yValue, hcount, bind, Except.bind, pure, Except.pure] at he
        case _ => exact absurd h3 (by simp)
      case _ => exact absurd h3 (by simp)
    case _ => exact absurd h2 (by simp)
  case _ => exact absurd h1 (by simp)

/-- A run of the line loop over lines whose decodable records all have the
documented shape never raises. -/
theorem runLines_total (cfg : HashcatConfig) (decode : String → Option JsonFields) :
    ∀ (lines : List String) (st : ParseState),
      decodableShapesOk decode lines = true →
      ∃ st', runLines cfg decode st lines = .ok st'
  | [], st, _ => ⟨st, rfl⟩
  | l :: ls, st, h => by
      unfold decodableShapesOk at h
      simp only [List.all_cons, Bool.and_eq_true] at h
      obtain ⟨h1, h2⟩ := h
      have h2' : decodableShapesOk decode ls = true := h2
      unfold runLines
      simp only [bind, Except.bind, processLine]
      cases hsw : pyStartsWith (pyStrip l) "\x7b" with
      | false =>
          simp only [hsw, Bool.not_false, if_true]
          exact runLines_total cfg decode ls st h2'
      | true =>
          cases hdec : decode (pyStrip l) with
          | none =>
              simp only [hsw, Bool.not_true, Bool.false_eq_true, if_false, hdec]
              exact runLines_total cfg decode ls st h2'
          | some o =>
              have hw : wellShapedRecord o = true := by
                simp only [hdec] at h1
                exact h1
              obtain ⟨st1, hst1⟩ := processRecord_total cfg st o hw
              obtain ⟨st', hst'⟩ := runLines_total cfg decode ls st1 h2'
              refine ⟨st', ?_⟩
              simp only [hsw, Bool.not_true, Bool.false_eq_true, if_false, hdec, hst1]
              exact hst'

/-- C3 counterexample: the single line `\x7b"progress": []\x7d` is valid
JSON, passes the brace gate and decodes, but its `progress` list is empty,
so `data.get("progress", [0])[0]` raises IndexError, which the parse does
not catch: no triple is returned. -/
theorem c3_counterexample :
    parse_status_file defaultConfig decodeProgressEmpty
      ["\x7b\"progress\": []\x7d"] = .error .indexError := rfl

/-- C3 (amended): the parse returns a triple without raising for every
sequence of lines whose decodable records have the documented field
shapes; non-JSON lines and lines failing JSON decoding never abort it.  In
general it is not total: a decoded object whose fields are outside the
documented shapes (for example `progress=[]`) raises an uncaught
exception. -/
theorem c3_graceful_on_documented_shapes (cfg : HashcatConfig)
    (decode : String → Option JsonFields) (lines : List String)
    (h : decodableShapesOk decode lines = true) :
    ∃ out, parse_status_file cfg decode lines = .ok out := by
  obtain ⟨st', hst'⟩ := runLines_total cfg decode lines initialState h
  exact ⟨(st'.curves_x, st'.curves_y, st'.label_list),
    by simp [parse_status_file, hst', Except.map]⟩

/-- Witness for C3 (amended): a junk line, an empty-object line. -/
theorem c3_graceful_on_documented_shapes_witness :
    ∃ out, parse_status_file defaultConfig decodeEmptyObject
      ["junk", "\x7b\x7d"] = .ok out :=
  c3_graceful_on_documented_shapes defaultConfig decodeEmptyObject
    ["junk", "\x7b\x7d"] (by decide)

/-- A line that is not kept (no brace after stripping, or failing decode)
leaves the loop state untouched. -/
theorem processLine_skipped (cfg : HashcatConfig)
    (decode : String → Option JsonFields) (st : ParseState) (l : String)
    (h : keptLine decode l = false) :
    processLine cfg decode st l = .ok st := by
  unfold keptLine at h
  rw [Bool.and_eq_false_iff] at h
  unfold processLine
  rcases h with h | h
  · simp [h]
  · have hdec : decode (pyStrip l) = none := by
      cases hd : decode (pyStrip l) with
      | none => rfl
      | some o => rw [hd] at h; cases h
    cases hsw : pyStartsWith (pyStrip l) "\x7b" <;> simp [hsw, hdec]

/-- The line loop ignores lines that are not kept: running it over any
line list equals running it over the kept lines only. -/
theorem runLines_filter (cfg : HashcatConfig)
    (decode : String → Option JsonFields) :
    ∀ (ls : List String) (st : ParseState),
      runLines cfg decode st ls =
        runLines cfg decode st (ls.filter (keptLine decode))
  | [], _ => rfl
  | l :: ls, st => by
      rw [List.filter_cons]
      cases hk : keptLine decode l with
      | false =>
          simp only [Bool.false_eq_true, if_false]
          have hskip := processLine_skipped cfg decode st l hk
          calc runLines cfg decode st (l :: ls)
              = runLines cfg decode st ls := by
                unfold runLines
                simp only [hskip, bind, Except.bind]
                cases ls <;> rfl
            _ = runLines cfg decode st (ls.filter (keptLine decode)) :=
              runLines_filter cfg decode ls st
      | true =>
          simp only [if_true]
          unfold runLines
          simp only [bind, Except.bind]
          cases hp : processLine cfg decode st l with
          | error e => rfl
          | ok st1 => exact runLines_filter cfg decode ls st1

/-- C6: inserting lines that are not decodable JSON records (no opening
brace after stripping, or failing JSON decode) anywhere in the input
changes nothing: two line lists with the same kept lines parse to the same
result, and the skipped lines contribute nothing to any accumulator. -/
theorem c6_malformed_line_tolerance (cfg : HashcatConfig)
    (decode : String → Option JsonFields) (ls1 ls2 : List String)
    (h : ls1.filter (keptLine decode) = ls2.filter (keptLine decode)) :
    parse_status_file cfg decode ls1 = parse_status_file cfg decode ls2 := by
  unfold parse_status_file
  rw [runLines_filter cfg decode ls1 initialState,
      runLines_filter cfg decode ls2 initialState, h]

/-- Witness for C6: junk and truncated-JSON lines inserted around an
empty-object line parse identically to the single kept line. -/
theorem c6_malformed_line_tolerance_witness :
    parse_status_file defaultConfig decodeEmptyObject
      ["junk", "\x7b\x7d", "\x7bbad"] =
    parse_status_file defaultConfig decodeEmptyObject ["\x7b\x7d"] :=
  c6_malformed_line_tolerance defaultConfig decodeEmptyObject
    ["junk", "\x7b\x7d", "\x7bbad"] ["\x7b\x7d"] (by decide)

/-- Slicing with step `n` selects exactly the elements at the indices that
are multiples of `n`. -/
theorem sliceEvery_get? {α : Type _} (n : Nat) (hn : 1 ≤ n) :
    ∀ (l : List α) (i : Nat), (sliceEvery l n).get? i = l.get? (n * i)
  | [], i => by simp [sliceEvery]
  | a :: t, 0 => by simp [sliceEvery]
  | a :: t, i + 1 => by
      have ih := sliceEvery_get? n hn (t.drop (n - 1)) i
      rw [sliceEvery]
      rw [List.get?_cons_succ, ih, List.get?_drop]
      have hidx : n - 1 + n * i + 1 = n * (i + 1) := by
        rw [Nat.mul_succ]
        omega
      rw [show n * (i + 1) = (n - 1 + n * i) + 1 from hidx.symm, List.get?_cons_succ]
termination_by l _ => l.length
decreasing_by
  simp only [List.length_drop, List.length_cons]
  omega

/-- Slicing a non-empty list is non-empty. -/
theorem sliceEvery_ne_nil {α : Type _} {l : List α} (n : Nat) (h : l ≠ []) :
    sliceEvery l n ≠ [] := by
  cases l with
  | nil => exact absurd rfl h
  | cons a t => rw [sliceEvery]; simp

/-- Dropping fewer elements than the length preserves the last element. -/
theorem getLast?_drop_of_lt {α : Type _} :
    ∀ {l : List α} {k : Nat}, k < l.length → (l.drop k).getLast? = l.getLast?
  | l, 0, _ => by rw [List.drop_zero]
  | a :: t, k + 1, h => by
      rw [List.drop_succ_cons]
      have ht : k < t.length := by
        simp only [List.length_cons] at h
        omega
      rw [getLast?_drop_of_lt ht]
      cases t with
      | nil => simp at ht
      | cons b t2 => rw [List.getLast?_cons_cons]

/-- When the last index is a multiple of the step, the slice retains the
last element. -/
theorem sliceEvery_getLast? {α : Type _} (n : Nat) (hn : 1 ≤ n) :
    ∀ (l : List α), l ≠ [] → (l.length - 1) % n = 0 →
      (sliceEvery l n).getLast? = l.getLast?
  | [], h, _ => absurd rfl h
  | [a], _, _ => by rw [sliceEvery]; simp [sliceEvery]
  | a :: b :: t2, _, hmod => by
      have hmod' : (b :: t2).length % n = 0 := by simpa using hmod
      have hge : n ≤ (b :: t2).length := by
        rcases Nat.dvd_of_mod_eq_zero hmod' with ⟨q, hq⟩
        cases q with
        | zero => simp at hq
        | succ q2 =>
            rw [hq, Nat.mul_succ]
            omega
      have hdlen : (b :: t2).drop (n - 1) ≠ [] := by
        rw [← List.length_pos, List.length_drop]
        omega
      have hdmod : (((b :: t2).drop (n - 1)).length - 1) % n = 0 := by
        rw [List.length_drop]
        rcases Nat.dvd_of_mod_eq_zero hmod' with ⟨q, hq⟩
        cases q with
        | zero => rw [hq] at hge; omega
        | succ q2 =>
            have hql : (b :: t2).length - (n - 1) - 1 = n * q2 := by
              rw [hq, Nat.mul_succ]
              omega
            rw [hql, Nat.mul_mod_right]
      have ih := sliceEvery_getLast? n hn ((b :: t2).drop (n - 1)) hdlen hdmod
      rw [sliceEvery]
      have hcons := sliceEvery_ne_nil (l := (b :: t2).drop (n - 1)) n hdlen
      cases hsl : sliceEvery ((b :: t2).drop (n - 1)) n with
      | nil => exact absurd hsl hcons
      | cons c cs =>
          rw [List.getLast?_cons_cons, ← hsl, ih,
              getLast?_drop_of_lt (by omega), List.getLast?_cons_cons]
termination_by l => l.length
decreasing_by
  simp only [List.length_drop, List.length_cons]
  omega

/-- C7: a curve of more than 1000 points is downsampled to its stride-60
slice (the elements at indices 0, 60, 120, ...), with the true final point
appended exactly when the last index is not a multiple of 60, so the last
point after downsampling always equals the last point before it; a curve
of at most 1000 points is left unchanged. -/
theorem c7_downsample_endpoint {α : Type _} (l : List α) :
    (l.length ≤ 1000 → downsampleCurve l = l) ∧
    (1000 < l.length →
      (∀ i, (sliceEvery l 60).get? i = l.get? (60 * i)) ∧
      ((l.length - 1) % 60 = 0 → downsampleCurve l = sliceEvery l 60) ∧
      ((l.length - 1) % 60 ≠ 0 →
        ∃ a, l.getLast? = some a ∧ downsampleCurve l = sliceEvery l 60 ++ [a]) ∧
      (downsampleCurve l).getLast? = l.getLast?) := by
  constructor
  · intro h
    unfold downsampleCurve
    rw [if_neg (by omega)]
  · intro h
    have hne : l ≠ [] := by
      intro h0
      rw [h0] at h
      simp at h
    refine ⟨sliceEvery_get? 60 (by norm_num) l, ?_, ?_, ?_⟩
    · intro hm
      unfold downsampleCurve
      rw [if_pos h, if_neg (not_not_intro hm)]
    · intro hm
      have ha := List.getLast?_eq_getLast_of_ne_nil hne
      refine ⟨l.getLast hne, ha, ?_⟩
      unfold downsampleCurve
      rw [if_pos h, if_pos hm, ha]
    · by_cases hm : (l.length - 1) % 60 = 0
      · unfold downsampleCurve
        rw [if_pos h, if_neg (not_not_intro hm)]
        exact sliceEvery_getLast? 60 (by norm_num) l hne hm
      · have ha := List.getLast?_eq_getLast_of_ne_nil hne
        unfold downsampleCurve
        rw [if_pos h, if_pos hm, ha, List.getLast?_concat]

/-- Witness for C7: a 1002-point curve keeps its endpoint after
downsampling, and a 2-point curve passes through unchanged. -/
theorem c7_downsample_endpoint_witness :
    (downsampleCurve longCurve).getLast? = longCurve.getLast? ∧
    downsampleCurve [(0 : ℚ), 10] = [0, 10] :=
  ⟨((c7_downsample_endpoint longCurve).2
      (by unfold longCurve; rw [List.length_replicate]; norm_num)).2.2.2,
   (c7_downsample_endpoint [(0 : ℚ), 10]).1 (by norm_num)⟩
